import Mathlib

/-!
Verification development for the running-analyzer FIT decoding core.

Shallow embedding of:
  * `src/lib/fit-parser.ts` (`FITParser`: `parse`, `readHeader`, `readMessage`,
    `readDefinitionMessage`, `readDataMessage`, `readFieldValue`,
    `readDevFieldValue`), and
  * `src/lib/data-processor.ts` (`getSpeedMs`, `getDistanceKm`, `getGctMs`,
    `getVOCm`, `getStepLengthMm`, `getVerticalRatioPercent`,
    `getStanceTimeBalancePercent`, `processRecords`).

Modelling conventions:
  * A byte buffer is a `List ℕ` of values `< 256` (a `DataView`).
  * JavaScript numbers are modelled by `JSNum`: either NaN, a signed infinity,
    or an exact rational.  All numeric operations the embedded code performs on
    float-decoded values (bit-pattern decoding, `Math.abs`, comparison with
    `1e10`, `Number.isFinite`) are exact, so `ℚ` is a faithful carrier.
  * `DataView` reads that would go out of bounds throw in JS; they are modelled
    as `none` / an `Except.error` carrying the cursor position at the throw,
    matching the `try`/`catch` structure of the source.  In
    `getUint8(this.offset++)` the cursor increments before the read can throw;
    the model reproduces the cursor value observed by each `catch`.
  * The `while` loop of `FITParser.parse` is modelled with explicit fuel
    (`parseLoop`); `parse buf fuel = ParseResult.outOfFuel` for every `fuel`
    exactly when the JS loop never terminates.
-/

/-! ## Byte-buffer primitives (DataView reads) -/

abbrev Buf := List Nat

/-- Little-endian value of a byte list: `leWord [b0, b1, …] = b0 + 256·b1 + …`. -/
def leWord (bs : List Nat) : Nat := bs.foldr (fun b acc => b + 256 * acc) 0

/-- `DataView.getUintN`: read `w` bytes at `off` in the given endianness;
`none` models the `RangeError` thrown on an out-of-bounds read. -/
def getUintN (buf : Buf) (off w : Nat) (isLE : Bool) : Option Nat :=
  if off + w ≤ buf.length then
    let bs := (List.range w).map (fun k => buf.getD (off + k) 0)
    some (leWord (if isLE then bs else bs.reverse))
  else none

/-- Two's-complement reinterpretation of a `w`-byte unsigned value. -/
def toSigned (n w : Nat) : Int :=
  if n < 2 ^ (8 * w - 1) then (n : Int) else (n : Int) - 2 ^ (8 * w)

/-! ## JavaScript numbers -/

/-- A JavaScript number as produced by the decoder: NaN, ±Infinity, or an
exact rational (every finite IEEE-754 double is rational). -/
inductive JSNum where
  | nan : JSNum
  | inf (neg : Bool) : JSNum
  | num (q : ℚ) : JSNum
deriving DecidableEq

/-- Decode a 32-bit word as an IEEE-754 binary32 value (`DataView.getFloat32`).
Bit decoding is exact: a finite float32 with exponent field `e` and fraction
`m` equals `±(2^23 + m)·2^e / 2^150` (normal) or `±m / 2^149` (subnormal). -/
def decodeFloat32 (w : Nat) : JSNum :=
  let s : ℕ := w / 2 ^ 31 % 2
  let e : ℕ := w / 2 ^ 23 % 2 ^ 8
  let m : ℕ := w % 2 ^ 23
  if e = 255 then
    if m = 0 then .inf (s == 1) else .nan
  else
    let mag : ℚ :=
      if e = 0 then (m : ℚ) / 2 ^ 149 else ((2 ^ 23 + m : ℕ) : ℚ) * 2 ^ e / 2 ^ 150
    .num (if s = 1 then -mag else mag)

/-- Decode a 64-bit word as an IEEE-754 binary64 value (`DataView.getFloat64`). -/
def decodeFloat64 (w : Nat) : JSNum :=
  let s : ℕ := w / 2 ^ 63 % 2
  let e : ℕ := w / 2 ^ 52 % 2 ^ 11
  let m : ℕ := w % 2 ^ 52
  if e = 2047 then
    if m = 0 then .inf (s == 1) else .nan
  else
    let mag : ℚ :=
      if e = 0 then (m : ℚ) / 2 ^ 1074 else ((2 ^ 52 + m : ℕ) : ℚ) * 2 ^ e / 2 ^ 1075
    .num (if s = 1 then -mag else mag)

/-! ## Unit normalizers (`src/lib/data-processor.ts`)

The processor's input records hold JS numbers; the fields the verified claims
touch are integer/rational-valued, so record fields are carried as
`Option ℚ` (`none` = the field is `undefined` on the record). -/

/-- Input record of `processRecords` (the subset of `FITRecord` fields that the
distance/speed/cadence/dynamics computations read; the Stryd developer-field
value-range scan of lines 229–296, which only feeds power/LSS/impact outputs,
is outside the verified claims and is not carried). -/
structure PRecord where
  timestamp : Option ℚ := none
  distance : Option ℚ := none
  speed : Option ℚ := none
  enhanced_speed : Option ℚ := none
  cadence : Option ℚ := none
  fractional_cadence : Option ℚ := none
  stance_time : Option ℚ := none
  ground_time : Option ℚ := none
  vertical_oscillation : Option ℚ := none
  vertical_oscillation_stryd : Option ℚ := none
  step_length : Option ℚ := none
  step_length_alt : Option ℚ := none
  vertical_ratio : Option ℚ := none
  vertical_ratio_alt : Option ℚ := none
  stance_time_balance : Option ℚ := none
  stance_time_balance_alt : Option ℚ := none
  heart_rate : Option ℚ := none
deriving DecidableEq

/-- `r.speed` branch of `getSpeedMs`: positive values `> 100` are mm/s and
scaled by 1000, positive values `≤ 100` are taken as m/s, otherwise `0`. -/
def speedFromRaw (o : Option ℚ) : ℚ :=
  match o with
  | some s => if 0 < s then (if 100 < s then s / 1000 else s) else 0
  | none => 0

/-- `getSpeedMs` (data-processor.ts lines 93–110): prefer `enhanced_speed`
when defined and positive, else fall through to `speed`; `0` when absent. -/
def getSpeedMs (r : PRecord) : ℚ :=
  match r.enhanced_speed with
  | some es => if 0 < es then (if 100 < es then es / 1000 else es) else speedFromRaw r.speed
  | none => speedFromRaw r.speed

/-- `getDistanceKm` (lines 117–121): raw centimeters, `/100/1000 → km`;
`undefined` or `0` is absent. -/
def getDistanceKm (rawDistance : Option ℚ) : Option ℚ :=
  match rawDistance with
  | none => none
  | some r => if r = 0 then none else some (r / 100 / 1000)

/-- `getGctMs` (lines 128–137): raw 0.1 ms units, `/10 → ms`, gated to the
plausible running range 150–400 ms; `undefined`/`0`/out-of-range is absent. -/
def getGctMs (rawGct : Option ℚ) : Option ℚ :=
  match rawGct with
  | none => none
  | some r =>
      if r = 0 then none
      else
        let gctMs := r / 10
        if 150 ≤ gctMs ∧ gctMs ≤ 400 then some gctMs else none

/-- `getVOCm` (lines 144–150): raw 0.1 mm units, `/100 → cm`;
`undefined` or `0` is absent. -/
def getVOCm (rawVO : Option ℚ) : Option ℚ :=
  match rawVO with
  | none => none
  | some r => if r = 0 then none else some (r / 100)

/-- `getStepLengthMm` (lines 156–160): raw 0.1 mm units, `/10 → mm`. -/
def getStepLengthMm (rawSL : Option ℚ) : Option ℚ :=
  match rawSL with
  | none => none
  | some r => if r = 0 then none else some (r / 10)

/-- `getVerticalRatioPercent` (lines 166–170): raw 0.01 % units, `/100 → %`. -/
def getVerticalRatioPercent (rawVR : Option ℚ) : Option ℚ :=
  match rawVR with
  | none => none
  | some r => if r = 0 then none else some (r / 100)

/-- `getStanceTimeBalancePercent` (lines 176–180): raw 0.01 % units, `/100 → %`. -/
def getStanceTimeBalancePercent (rawBalance : Option ℚ) : Option ℚ :=
  match rawBalance with
  | none => none
  | some r => if r = 0 then none else some (r / 100)

/-- JS `a ?? b` on two optional values. -/
def orElseO (a b : Option ℚ) : Option ℚ :=
  match a with
  | some x => some x
  | none => b

/-- Output of `processRecords` — the fields of `RunningDataPoint` computed by
the verified claims (power/Stryd heuristic outputs omitted, see `PRecord`). -/
structure RunningDataPoint where
  idx : Nat
  timestamp : ℚ
  distance : ℚ
  speed : ℚ
  pace : Option ℚ
  gct : ℚ
  vo : Option ℚ
  sl : Option ℚ
  cadence : Option ℚ
  vr : Option ℚ
  gctBalance : Option ℚ
  hr : Option ℚ
deriving DecidableEq

/-- Body of the `.map` in `processRecords` (lines 195–321) for one record,
returning the point and the updated `lastValidDistance`. -/
def processPoint (idx : Nat) (lastValid : ℚ) (r : PRecord) : RunningDataPoint × ℚ :=
  let speed := getSpeedMs r
  let fractional := (r.fractional_cadence.getD 0) / 128
  let cadence : Option ℚ :=
    match r.cadence with
    | some c => if c = 0 then none else some ((c + fractional) * 2)
    | none => none
  let distanceKm := getDistanceKm r.distance
  let lastValid2 := distanceKm.getD lastValid
  let vo := orElseO (getVOCm r.vertical_oscillation) r.vertical_oscillation_stryd
  let gctOpt := orElseO (getGctMs r.stance_time) (getGctMs r.ground_time)
  let sl := orElseO (getStepLengthMm r.step_length) (getStepLengthMm r.step_length_alt)
  let vr0 := orElseO (getVerticalRatioPercent r.vertical_ratio)
    (getVerticalRatioPercent r.vertical_ratio_alt)
  let vr : Option ℚ :=
    match vr0, vo, sl with
    | none, some v, some s => if 0 < s then some (v * 10 / s * 100) else none
    | x, _, _ => x
  let gctBalance := orElseO (getStanceTimeBalancePercent r.stance_time_balance)
    (getStanceTimeBalancePercent r.stance_time_balance_alt)
  ({ idx := idx
     timestamp := r.timestamp.getD (idx : ℚ)
     distance := distanceKm.getD lastValid
     speed := speed
     pace := if 0 < speed then some (1000 / (speed * 60)) else none
     gct := gctOpt.getD 0
     vo := vo
     sl := sl
     cadence := cadence
     vr := vr
     gctBalance := gctBalance
     hr := r.heart_rate }, lastValid2)

/-- The indexed map with the mutable `lastValidDistance` accumulator. -/
def processGo (idx : Nat) (lastValid : ℚ) : List PRecord → List RunningDataPoint
  | [] => []
  | r :: rs =>
      let (p, lv) := processPoint idx lastValid r
      p :: processGo (idx + 1) lv rs

/-- `processRecords` (lines 186–322): keep records whose speed exceeds
0.5 m/s, then map them to `RunningDataPoint`s with carry-forward distance. -/
def processRecords (records : List PRecord) : List RunningDataPoint :=
  processGo 0 0 (records.filter (fun r => (1 : ℚ) / 2 < getSpeedMs r))

/-! ## FIT parser data model (`src/types/fit.ts`, `src/lib/fit-parser.ts`) -/

/-- `FITFieldDefinition`. -/
structure FITFieldDef where
  fieldDefNum : Nat
  fieldSize : Nat
  baseType : Nat
deriving DecidableEq

/-- `FITDevFieldDefinition` (note: it carries no base type at all). -/
structure FITDevFieldDef where
  fieldNum : Nat
  size : Nat
  devDataIndex : Nat
deriving DecidableEq

/-- `FITMessageDefinition`. -/
structure FITMessageDef where
  globalMessageNumber : Nat
  fields : List FITFieldDef
  devFields : List FITDevFieldDef
  size : Nat
  isLittleEndian : Bool
deriving DecidableEq

/-- `FITHeader`. -/
structure FITHeader where
  headerSize : Nat
  protocolVersion : Nat
  profileVersion : Nat
  dataSize : Nat
deriving DecidableEq

/-- A decoded message: `messageType` plus named numeric fields in insertion
order (the `FITRecord` object built by `readDataMessage`). -/
structure FITRecordOut where
  messageType : Nat
  fields : List (String × JSNum)
deriving DecidableEq

/-- Parser cursor plus the local-message-type definition table
(`FITParser.offset` / `FITParser.definitions`). -/
structure ParserState where
  offset : Nat
  definitions : Nat → Option FITMessageDef

/-- The `RECORD_FIELDS` table (fit-parser.ts lines 27–54). -/
def RECORD_FIELDS (n : Nat) : Option String :=
  if n = 253 then some "timestamp"
  else if n = 0 then some "position_lat"
  else if n = 1 then some "position_long"
  else if n = 2 then some "altitude"
  else if n = 3 then some "heart_rate"
  else if n = 4 then some "cadence"
  else if n = 5 then some "distance"
  else if n = 6 then some "speed"
  else if n = 7 then some "power"
  else if n = 39 then some "vertical_oscillation"
  else if n = 40 then some "stance_time_percent"
  else if n = 41 then some "stance_time"
  else if n = 42 then some "activity_type"
  else if n = 43 then some "left_right_balance"
  else if n = 44 then some "gps_accuracy"
  else if n = 45 then some "vertical_speed"
  else if n = 46 then some "calories"
  else if n = 47 then some "vertical_ratio"
  else if n = 48 then some "stance_time_balance"
  else if n = 49 then some "step_length"
  else if n = 53 then some "fractional_cadence"
  else if n = 62 then some "enhanced_altitude"
  else if n = 73 then some "enhanced_speed"
  else if n = 78 then some "saturated_hemoglobin_percent"
  else if n = 79 then some "total_hemoglobin_conc"
  else if n = 83 then some "core_temperature"
  else none

/-- Unsigned read as a `JSNum`. -/
def getUintV (buf : Buf) (off w : Nat) (isLE : Bool) : Option JSNum :=
  (getUintN buf off w isLE).map (fun n => .num (n : ℚ))

/-- Signed read as a `JSNum`. -/
def getIntV (buf : Buf) (off w : Nat) (isLE : Bool) : Option JSNum :=
  (getUintN buf off w isLE).map (fun n => .num ((toSigned n w : ℤ) : ℚ))

/-- `DataView.getFloat32` as a `JSNum`. -/
def getFloat32V (buf : Buf) (off : Nat) (isLE : Bool) : Option JSNum :=
  (getUintN buf off 4 isLE).map decodeFloat32

/-- `DataView.getFloat64` as a `JSNum`. -/
def getFloat64V (buf : Buf) (off : Nat) (isLE : Bool) : Option JSNum :=
  (getUintN buf off 8 isLE).map decodeFloat64

/-- `FITParser.readFieldValue` (lines 305–356): switch on the low 5 bits of
the base-type code; multi-byte integer/float types first check the declared
`fieldSize` against the natural width, 8-bit types read unconditionally;
`none` models both the `null` returns and the caught out-of-bounds throw.
(The source's `case 131/132/…` labels are unreachable after the `& 0x1F`
mask and are omitted.) -/
def readFieldValue (buf : Buf) (off : Nat) (field : FITFieldDef) (isLE : Bool) :
    Option JSNum :=
  let baseType := field.baseType &&& 0x1F
  if baseType = 0 ∨ baseType = 2 then getUintV buf off 1 isLE
  else if baseType = 1 then getIntV buf off 1 isLE
  else if baseType = 3 then
    if 2 ≤ field.fieldSize then getIntV buf off 2 isLE else none
  else if baseType = 4 then
    if 2 ≤ field.fieldSize then getUintV buf off 2 isLE else none
  else if baseType = 5 then
    if 4 ≤ field.fieldSize then getIntV buf off 4 isLE else none
  else if baseType = 6 then
    if 4 ≤ field.fieldSize then getUintV buf off 4 isLE else none
  else if baseType = 7 then none
  else if baseType = 8 then
    if 4 ≤ field.fieldSize then getFloat32V buf off isLE else none
  else if baseType = 9 then
    if 8 ≤ field.fieldSize then getFloat64V buf off isLE else none
  else if baseType = 10 then getUintV buf off 1 isLE
  else if baseType = 11 then
    if 2 ≤ field.fieldSize then getUintV buf off 2 isLE else none
  else if baseType = 12 then
    if 4 ≤ field.fieldSize then getUintV buf off 4 isLE else none
  else none

/-- `FITParser.readDevFieldValue` (lines 358–384): decode purely from the
declared size; a 4-byte slot is tried as float32 first and kept when finite
with `|value| < 1e10`, otherwise re-read as uint32. -/
def readDevFieldValue (buf : Buf) (off size : Nat) (isLE : Bool) : Option JSNum :=
  if size = 1 then getUintV buf off 1 isLE
  else if size = 2 then getUintV buf off 2 isLE
  else if size = 4 then
    match getFloat32V buf off isLE with
    | none => none
    | some (.num q) => if |q| < 10 ^ 10 then some (.num q) else getUintV buf off 4 isLE
    | some _ => getUintV buf off 4 isLE
  else if size = 8 then getFloat64V buf off isLE
  else none

/-- Standard-field loop of `readDataMessage` (lines 227–244): decode each
field at the running offset, record it under its `RECORD_FIELDS` name when the
message is a record (global number 20) and the value is non-null, and advance
by the declared field size regardless.  (The global-206/207 handlers are
empty stubs in the source.) -/
def readFields (buf : Buf) (isLE : Bool) (gmn : Nat) :
    List FITFieldDef → Nat → List (String × JSNum) → Nat × List (String × JSNum)
  | [], off, acc => (off, acc)
  | f :: fs, off, acc =>
      let value := readFieldValue buf off f isLE
      let acc2 :=
        if gmn = 20 then
          match RECORD_FIELDS f.fieldDefNum, value with
          | some name, some v => acc ++ [(name, v)]
          | _, _ => acc
        else acc
      readFields buf isLE gmn fs (off + f.fieldSize) acc2

/-- Developer-field loop of `readDataMessage` (lines 247–271).  The
`developerFields` metadata map is never populated (the 206/207 handlers are
stubs), so every non-null value is stored under the generic
`dev_<devDataIndex>_<fieldNum>` name. -/
def readDevFields (buf : Buf) (isLE : Bool) :
    List FITDevFieldDef → Nat → List (String × JSNum) → Nat × List (String × JSNum)
  | [], off, acc => (off, acc)
  | d :: ds, off, acc =>
      let value := readDevFieldValue buf off d.size isLE
      let acc2 :=
        match value with
        | some v => acc ++ [("dev_" ++ toString d.devDataIndex ++ "_" ++ toString d.fieldNum, v)]
        | none => acc
      readDevFields buf isLE ds (off + d.size) acc2

/-- `FITParser.readDataMessage` (lines 223–274): never throws. -/
def readDataMessage (buf : Buf) (st : ParserState) (d : FITMessageDef) :
    ParserState × FITRecordOut :=
  let (off1, flds1) := readFields buf d.isLittleEndian d.globalMessageNumber d.fields st.offset []
  let (off2, flds2) := readDevFields buf d.isLittleEndian d.devFields off1 flds1
  ({ st with offset := off2 }, { messageType := d.globalMessageNumber, fields := flds2 })

/-- The field-triple loop of `readDefinitionMessage` (lines 194–200).  Each
byte is read via `getUint8(this.offset++)`, so the cursor increments before a
read can throw; `Except.error` carries the cursor value seen by the `catch`. -/
def readTriples (buf : Buf) : Nat → Nat → List (Nat × Nat × Nat) →
    Except Nat (Nat × List (Nat × Nat × Nat))
  | off, 0, acc => .ok (off, acc)
  | off, n + 1, acc =>
      match buf.get? off with
      | none => .error (off + 1)
      | some a =>
        match buf.get? (off + 1) with
        | none => .error (off + 2)
        | some b =>
          match buf.get? (off + 2) with
          | none => .error (off + 3)
          | some c => readTriples buf (off + 3) n (acc ++ [(a, b, c)])

/-- `FITParser.readDefinitionMessage` (lines 183–221), starting just after the
record-header byte: skip the reserved byte, read the architecture byte
(`0` = little-endian), the global message number in that endianness, the
field triples, and — when the developer-data flag was set — the developer
triples.  Returns the new cursor and the definition, or the cursor at the
point an out-of-bounds read threw. -/
def readDefinitionMessage (buf : Buf) (off0 : Nat) (hasDeveloperData : Bool) :
    Except Nat (Nat × FITMessageDef) :=
  let off1 := off0 + 1
  match buf.get? off1 with
  | none => .error (off1 + 1)
  | some arch =>
    let isLittleEndian := arch = 0
    match getUintN buf (off1 + 1) 2 isLittleEndian with
    | none => .error (off1 + 1)
    | some globalMessageNumber =>
      match buf.get? (off1 + 3) with
      | none => .error (off1 + 4)
      | some numFields =>
        match readTriples buf (off1 + 4) numFields [] with
        | .error failOff => .error failOff
        | .ok (off2, fieldTriples) =>
          let fields := fieldTriples.map (fun t => FITFieldDef.mk t.1 t.2.1 t.2.2)
          let sizeStd := (fields.map (·.fieldSize)).sum
          if hasDeveloperData then
            match buf.get? off2 with
            | none => .error (off2 + 1)
            | some numDevFields =>
              match readTriples buf (off2 + 1) numDevFields [] with
              | .error failOff => .error failOff
              | .ok (off3, devTriples) =>
                let devFields := devTriples.map (fun t => FITDevFieldDef.mk t.1 t.2.1 t.2.2)
                let sizeDev := (devFields.map (·.size)).sum
                .ok (off3, ⟨globalMessageNumber, fields, devFields,
                  sizeStd + sizeDev, isLittleEndian⟩)
          else
            .ok (off2, ⟨globalMessageNumber, fields, [], sizeStd, isLittleEndian⟩)

/-- `FITParser.readMessage` (lines 149–181): `Except.error` carries the state
at the point an exception escaped; `.ok (st, none)` is a `return null`. -/
def readMessage (buf : Buf) (st : ParserState) :
    Except ParserState (ParserState × Option FITRecordOut) :=
  if buf.length ≤ st.offset then .ok (st, none)
  else
    let recordHeader := buf.getD st.offset 0
    let st1 : ParserState := { st with offset := st.offset + 1 }
    if recordHeader &&& 0x80 ≠ 0 then
      let localMessageType := (recordHeader >>> 5) &&& 0x03
      match st1.definitions localMessageType with
      | some d => let (st2, rec) := readDataMessage buf st1 d; .ok (st2, some rec)
      | none => .ok (st1, none)
    else
      let isDefinition := recordHeader &&& 0x40 ≠ 0
      let hasDeveloperData := recordHeader &&& 0x20 ≠ 0
      let localMessageType := recordHeader &&& 0x0F
      if isDefinition then
        match readDefinitionMessage buf st1.offset hasDeveloperData with
        | .error failOff => .error { st1 with offset := failOff }
        | .ok (newOff, d) =>
            .ok ({ offset := newOff,
                   definitions := fun n =>
                     if n = localMessageType then some d else st1.definitions n }, none)
      else
        match st1.definitions localMessageType with
        | some d => let (st2, rec) := readDataMessage buf st1 d; .ok (st2, some rec)
        | none => .ok (st1, none)

/-- `FITParser.readHeader` (lines 124–147): all reads cover bytes 0–11, so
the `catch` fires exactly when the buffer is shorter than 12 bytes; bytes
8–11 must spell the ASCII signature `.FIT` (46, 70, 73, 84). -/
def readHeader (buf : Buf) : Option FITHeader :=
  if buf.length < 12 then none
  else if buf.getD 8 0 = 46 ∧ buf.getD 9 0 = 70 ∧ buf.getD 10 0 = 73 ∧ buf.getD 11 0 = 84 then
    some ⟨buf.getD 0 0, buf.getD 1 0, (getUintN buf 2 2 true).getD 0,
      (getUintN buf 4 4 true).getD 0⟩
  else none

/-- Result of `FITParser.parse`: header rejection throws `Invalid FIT file
header` to the caller; `outOfFuel` marks a run of the `while` loop that did
not finish within the given fuel. -/
inductive ParseResult where
  | invalidHeader : ParseResult
  | outOfFuel : ParseResult
  | ok (records : List FITRecordOut) : ParseResult
deriving DecidableEq

/-- The `while (this.offset < endOffset)` loop of `parse` (lines 109–119):
record messages (global number 20) are pushed; a caught exception advances
the cursor by one byte. -/
def parseLoop (buf : Buf) (endOffset : Nat) :
    Nat → ParserState → List FITRecordOut → Option (List FITRecordOut)
  | 0, _, _ => none
  | fuel + 1, st, acc =>
      if st.offset < endOffset then
        match readMessage buf st with
        | .ok (st2, some r) =>
            parseLoop buf endOffset fuel st2
              (if r.messageType = 20 then acc ++ [r] else acc)
        | .ok (st2, none) => parseLoop buf endOffset fuel st2 acc
        | .error stE => parseLoop buf endOffset fuel { stE with offset := stE.offset + 1 } acc
      else some acc

/-- `FITParser.parse` / `parseFITFile` (lines 99–122, 390–393). -/
def parse (buf : Buf) (fuel : Nat) : ParseResult :=
  match readHeader buf with
  | none => .invalidHeader
  | some h =>
      match parseLoop buf (h.headerSize + h.dataSize) fuel
          ⟨h.headerSize, fun _ => none⟩ [] with
      | none => .outOfFuel
      | some records => .ok records

/-! ## Claim-side definitions and concrete test vectors -/

/-- A valid 12-byte FIT header: `headerSize = 12`, protocol/profile 0, the
given `dataSize` (< 256) little-endian, signature `.FIT`. -/
def hdrBuf (dataSize : Nat) : Buf :=
  [12, 0, 0, 0, dataSize, 0, 0, 0, 46, 70, 73, 84]

/-- Valid header declaring one byte of message data, but the buffer holds no
message bytes at all (`headerSize + dataSize = 13 > 12 = length`). -/
def bufC1 : Buf := hdrBuf 1

/-- Definition message: local type 0, little-endian, global number 20
(record), one `uint16` field with `fieldDefNum` 6 (speed), size 2. -/
def defMsgLE : Buf := [0x40, 0, 0, 0x14, 0, 1, 6, 2, 132]

/-- Definition message: local type 1, big-endian architecture byte 1, global
number 20 big-endian, same single `uint16` speed field. -/
def defMsgBE : Buf := [0x41, 0, 1, 0, 0x14, 1, 6, 2, 132]

/-- Stream with coexisting little- and big-endian definitions (local types 0
and 1), then a data message for each, both encoding the logical value
`0x0102`: LE bytes `02 01`, BE bytes `01 02`. -/
def bufC8 : Buf := hdrBuf 24 ++ defMsgLE ++ defMsgBE ++ [0, 2, 1] ++ [1, 1, 2]

/-- Stream with one record definition, a well-formed record data message
(speed `0x0102 = 258`), one garbage byte `g`, and a second well-formed record
data message (speed `0x0304 = 772`). -/
def bufC4 (g : Nat) : Buf := hdrBuf 16 ++ defMsgLE ++ [0, 2, 1] ++ [g] ++ [0, 4, 3]

/-- Decoded first record of the `bufC4`/`bufC8` streams. -/
def recSpeed258 : FITRecordOut := ⟨20, [("speed", .num 258)]⟩

/-- Decoded second record of the `bufC4` stream. -/
def recSpeed772 : FITRecordOut := ⟨20, [("speed", .num 772)]⟩

/-- Record whose only speed information is the raw value 0 in both speed
fields: every speed normalizer sees the 0 sentinel. -/
def recZeroSpeed : PRecord := { enhanced_speed := some 0, speed := some 0 }

/-- Moving record (3 m/s) carrying a raw cadence of 0. -/
def recZeroCadence : PRecord := { speed := some 3, cadence := some 0 }

/-- Moving record (3 m/s) with raw stance time 2200 (0.1 ms units). -/
def recGct2200 : PRecord := { speed := some 3, stance_time := some 2200 }

/-- Moving record (3 m/s) with raw distance 200 cm. -/
def recDist200 : PRecord := { speed := some 3, distance := some 200 }

/-- Moving record (3 m/s) with raw distance 100 cm (less than `recDist200`). -/
def recDist100 : PRecord := { speed := some 3, distance := some 100 }

/-- Carry-forward of the valid distances in a record sequence: a present
distance is emitted and becomes the new carry; an absent one re-emits the
carry (initially 0). -/
def carryDistances (last : ℚ) : List (Option ℚ) → List ℚ
  | [] => []
  | some d :: t => d :: carryDistances d t
  | none :: t => last :: carryDistances last t

/-- Minimum declared byte size the Field Value Codec requires before it reads
a value of the given (masked) base-type code; `0` for codes it never reads. -/
def minSize (code : Nat) : Nat :=
  if code = 0 ∨ code = 1 ∨ code = 2 ∨ code = 10 then 1
  else if code = 3 ∨ code = 4 ∨ code = 11 then 2
  else if code = 5 ∨ code = 6 ∨ code = 8 ∨ code = 12 then 4
  else if code = 9 then 8
  else 0

/-- Number of bytes the Field Value Codec actually reads for the given
(masked) base-type code once the size check passes; `0` for codes whose value
is unconditionally absent. -/
def readWidth (code : Nat) : Nat :=
  if code = 0 ∨ code = 1 ∨ code = 2 ∨ code = 10 then 1
  else if code = 3 ∨ code = 4 ∨ code = 11 then 2
  else if code = 5 ∨ code = 6 ∨ code = 8 ∨ code = 12 then 4
  else if code = 9 then 8
  else 0

/-- Developer-field decoding as claim C10 words it, written independently of
`readDevFieldValue`: the value is decoded purely from the declared byte size
(sizes 1, 2, 8 read u8 / u16-in-endianness / float64; any other size is
absent; a 4-byte slot is read as float32 and kept when finite with
`|value| < 1e10`, otherwise re-read as uint32). -/
def devFieldValueClaim (buf : Buf) (off size : Nat) (isLE : Bool) : Option JSNum :=
  if size = 1 then getUintV buf off 1 isLE
  else if size = 2 then getUintV buf off 2 isLE
  else if size = 8 then getFloat64V buf off isLE
  else if size = 4 then
    match getFloat32V buf off isLE with
    | some (.num q) => if |q| < 10 ^ 10 then some (.num q) else getUintV buf off 4 isLE
    | some _ => getUintV buf off 4 isLE
    | none => none
  else none

/-! ## Helper lemmas -/

/-- Once the cursor has reached the end of the buffer while still short of
`endOffset`, `readMessage` returns `null` without advancing, so the loop body
makes no progress: the loop consumes all fuel. -/
theorem parseLoop_stuck (buf : Buf) (endOff : Nat) (st : ParserState)
    (acc : List FITRecordOut) (hlen : buf.length ≤ st.offset)
    (hend : st.offset < endOff) :
    ∀ fuel, parseLoop buf endOff fuel st acc = none := by
  intro fuel
  induction fuel with
  | zero => rfl
  | succ n ih =>
      have hmsg : readMessage buf st = .ok (st, none) := by
        unfold readMessage
        simp [hlen]
      unfold parseLoop
      simp [hend, hmsg, ih]

/-- `getGctMs` only returns values inside the 150–400 ms gate. -/
theorem getGctMs_range (x : Option ℚ) (g : ℚ) (h : getGctMs x = some g) :
    150 ≤ g ∧ g ≤ 400 := by
  unfold getGctMs at h
  rcases x with _ | r
  · simp at h
  · simp only at h
    split at h
    · simp at h
    · split at h
      · simp only [Option.some.injEq] at h
        subst h
        assumption
      · simp at h

/-- Speed of an emitted point is the record's normalized speed. -/
theorem processPoint_speed (idx : Nat) (lastValid : ℚ) (r : PRecord) :
    (processPoint idx lastValid r).1.speed = getSpeedMs r := by
  simp [processPoint]

/-- Ground-contact time of an emitted point is the gated value or the 0
placeholder. -/
theorem processPoint_gct (idx : Nat) (lastValid : ℚ) (r : PRecord) :
    (processPoint idx lastValid r).1.gct =
      (orElseO (getGctMs r.stance_time) (getGctMs r.ground_time)).getD 0 := by
  simp [processPoint]

/-- Distance of an emitted point and the updated carry. -/
theorem processPoint_distance (idx : Nat) (lastValid : ℚ) (r : PRecord) :
    (processPoint idx lastValid r).1.distance = (getDistanceKm r.distance).getD lastValid
    ∧ (processPoint idx lastValid r).2 = (getDistanceKm r.distance).getD lastValid := by
  constructor <;> simp [processPoint]

/-- The distances emitted by the indexed map are the carry-forward of the
normalized raw distances. -/
theorem processGo_distances (l : List PRecord) : ∀ idx last,
    (processGo idx last l).map (·.distance) =
      carryDistances last (l.map (fun r => getDistanceKm r.distance)) := by
  induction l with
  | nil => intro idx last; simp [processGo, carryDistances]
  | cons r rs ih =>
      intro idx last
      have hd := processPoint_distance idx last r
      cases hdist : getDistanceKm r.distance with
      | none =>
          simp only [processGo, List.map_cons, carryDistances, hdist]
          rw [hdist] at hd
          simp only [Option.getD_none] at hd
          rw [hd.1, hd.2, ih]
      | some d =>
          simp only [processGo, List.map_cons, carryDistances, hdist]
          rw [hdist] at hd
          simp only [Option.getD_some] at hd
          rw [hd.1, hd.2, ih]

/-- If the present distances, prefixed with the initial carry, are pairwise
non-decreasing, then so is the carry-forward sequence (still prefixed with
the carry). -/
theorem carryDistances_chain (os : List (Option ℚ)) : ∀ last : ℚ,
    List.Chain' (· ≤ ·) (last :: os.filterMap id) →
    List.Chain' (· ≤ ·) (last :: carryDistances last os) := by
  induction os with
  | nil => intro last _; simp [carryDistances]
  | cons o t ih =>
      intro last h
      cases o with
      | none =>
          rw [show ((none :: t).filterMap id : List ℚ) = t.filterMap id from rfl] at h
          simp only [carryDistances, List.chain'_cons]
          exact ⟨le_refl last, ih last h⟩
      | some d =>
          rw [show ((some d :: t).filterMap id : List ℚ) = d :: t.filterMap id from rfl,
            List.chain'_cons] at h
          simp only [carryDistances, List.chain'_cons]
          exact ⟨h.1, ih d h.2⟩

/-- Characterization of header rejection: `readHeader` fails exactly on a
buffer shorter than 12 bytes or a wrong signature in bytes 8–11. -/
theorem readHeader_eq_none_iff (buf : Buf) :
    readHeader buf = none ↔
      (buf.length < 12 ∨
        ¬(buf.getD 8 0 = 46 ∧ buf.getD 9 0 = 70 ∧ buf.getD 10 0 = 73 ∧ buf.getD 11 0 = 84)) := by
  unfold readHeader
  split_ifs <;> simp_all

/-- Every point emitted for a list of fast-enough records has speed above the
0.5 m/s acceptance filter and a gated (or 0-placeholder) ground-contact
time. -/
theorem processGo_speed_gct (l : List PRecord)
    (hl : ∀ r ∈ l, (1 : ℚ) / 2 < getSpeedMs r) :
    ∀ idx last p, p ∈ processGo idx last l →
      (1 : ℚ) / 2 < p.speed ∧ (p.gct = 0 ∨ (150 ≤ p.gct ∧ p.gct ≤ 400)) := by
  induction l with
  | nil => intro idx last p hp; simp [processGo] at hp
  | cons r rs ih =>
      intro idx last p hp
      simp only [processGo, List.mem_cons] at hp
      rcases hp with hp | hp
      · subst hp
        refine ⟨?_, ?_⟩
        · rw [processPoint_speed]
          exact hl r (List.mem_cons_self r rs)
        · rw [processPoint_gct]
          unfold orElseO
          cases hst : getGctMs r.stance_time with
          | some g =>
              simp only [Option.getD_some]
              exact Or.inr (getGctMs_range _ _ hst)
          | none =>
              cases hgt : getGctMs r.ground_time with
              | some g =>
                  simp only [Option.getD_some]
                  exact Or.inr (getGctMs_range _ _ hgt)
              | none => simp
      · exact ih (fun x hx => hl x (List.mem_cons_of_mem r hx)) (idx + 1)
          (processPoint idx last r).2 p hp

/-! ## Claim theorems -/

/-- C1: REFUTED — the message-decoding loop is NOT finite for every valid
header.  On `bufC1` (valid 12-byte header, `headerSize = 12`, `dataSize = 1`,
so `headerSize + dataSize` exceeds the buffer length) the cursor starts at the
buffer end: `readMessage` returns `null` without advancing and without
throwing, so `while (offset < endOffset)` spins forever.  The loop exhausts
any amount of fuel: the JS `parse` never terminates on this input. -/
theorem parse_c1_nonterminating : ∀ fuel, parse bufC1 fuel = .outOfFuel := by
  intro fuel
  have hh : readHeader bufC1 = some ⟨12, 0, 0, 1⟩ := by decide
  have hstuck := parseLoop_stuck bufC1 (12 + 1)
    ⟨12, fun _ => none⟩ [] (by decide) (by decide) fuel
  unfold parse
  rw [hh]
  simp only [hstuck]

/-- C2: REFUTED as stated — the vertical-oscillation normalizer divides by
100, not by 1000: raw 1000 maps to 10 cm, while `1000 / 1000 = 1 ≠ 10`. -/
theorem getVOCm_c2_counterexample :
    getVOCm (some 1000) = some 10 ∧ (1000 : ℚ) / 1000 ≠ 10 := by
  constructor
  · norm_num [getVOCm]
  · norm_num

/-- C2 (amended): for every non-zero raw vertical oscillation the normalizer
divides by 100 (raw 0.1 mm units: ÷10 → mm, ÷10 → cm); raw 0 and a missing
field are absent. -/
theorem getVOCm_c2_div100 :
    (∀ q : ℚ, getVOCm (some q) = if q = 0 then none else some (q / 100))
    ∧ getVOCm none = none := by
  constructor
  · intro q; rfl
  · rfl

/-- C7: unit normalization is exact on the reference inputs — raw distance
500000 cm is exactly 5 km; raw GCT 2200 (0.1 ms units) is 220 ms and inside
the 150–400 gate; raw GCT 50 normalizes to 5 ms, outside the gate, and is
rejected as absent. -/
theorem normalizers_c7_exact :
    getDistanceKm (some 500000) = some 5
    ∧ getGctMs (some 2200) = some 220 ∧ (150 ≤ (220 : ℚ) ∧ (220 : ℚ) ≤ 400)
    ∧ getGctMs (some 50) = none ∧ (50 : ℚ) / 10 < 150 := by
  refine ⟨?_, ?_, ?_, ?_, ?_⟩
  · norm_num [getDistanceKm]
  · norm_num [getGctMs]
  · norm_num
  · norm_num [getGctMs]
  · norm_num

/-- C8: endianness is scoped per message definition.  In `bufC8` a
little-endian definition (local type 0) and a big-endian definition (local
type 1) coexist; the LE data message carries bytes `02 01` and the BE data
message bytes `01 02`, and both decode to the logical value 258 under their
own definition's endianness. -/
theorem parse_c8_endianness_scoped :
    parse bufC8 50 = .ok [recSpeed258, recSpeed258] := by decide

/-- C9: `parseFITFile` fails with the invalid-file error exactly when the
buffer is shorter than 12 bytes or bytes 8–11 differ from the ASCII signature
`.FIT` (46, 70, 73, 84); on any such failure the result carries no records
(the error is thrown before the message loop starts). -/
theorem parse_c9_invalid_header_iff (buf : Buf) (fuel : Nat) :
    parse buf fuel = .invalidHeader ↔
      (buf.length < 12 ∨
        ¬(buf.getD 8 0 = 46 ∧ buf.getD 9 0 = 70 ∧ buf.getD 10 0 = 73 ∧ buf.getD 11 0 = 84)) := by
  have hiff := readHeader_eq_none_iff buf
  unfold parse
  cases h : readHeader buf with
  | none => exact iff_of_true rfl (hiff.mp h)
  | some hd =>
      have hnot : ¬(buf.length < 12 ∨
          ¬(buf.getD 8 0 = 46 ∧ buf.getD 9 0 = 70 ∧ buf.getD 10 0 = 73 ∧ buf.getD 11 0 = 84)) :=
        fun hr => by rw [hiff.mpr hr] at h; cases h
      dsimp only
      cases hpl : parseLoop buf (hd.headerSize + hd.dataSize) fuel
          ⟨hd.headerSize, fun _ => none⟩ [] with
      | none => exact iff_of_false (fun hc => ParseResult.noConfusion hc) hnot
      | some recs => exact iff_of_false (fun hc => ParseResult.noConfusion hc) hnot

/-- C9 witness: the empty buffer is rejected as an invalid file. -/
theorem parse_c9_witness : parse [] 5 = .invalidHeader :=
  (parse_c9_invalid_header_iff [] 5).mpr (Or.inl (by decide))

/-- C5: REFUTED as stated — the assembler does not enforce monotonicity.  Two
accepted records with raw distances 200 cm then 100 cm produce the strictly
decreasing distance sequence 1/500 km, 1/1000 km. -/
theorem processRecords_c5_counterexample :
    (processRecords [recDist200, recDist100]).map (·.distance) = [1 / 500, 1 / 1000]
    ∧ ¬((1 : ℚ) / 500 ≤ 1 / 1000) := by
  constructor
  · norm_num [processRecords, processGo, processPoint, getSpeedMs, speedFromRaw,
      getDistanceKm, getVOCm, getGctMs, getStepLengthMm, getVerticalRatioPercent,
      getStanceTimeBalancePercent, orElseO, List.filter, recDist200, recDist100]
  · norm_num

/-- C5 (amended): the emitted distances are exactly the carry-forward (from
an initial carry of 0 km) of the normalized raw distances of the accepted
records — a record with an absent raw distance repeats the most recent valid
distance — and the sequence is monotonically non-decreasing whenever the
valid raw distances themselves occur in non-decreasing order starting at or
above 0. -/
theorem processRecords_c5_carry_monotone :
    (∀ recs : List PRecord,
      (processRecords recs).map (·.distance) =
        carryDistances 0 ((recs.filter (fun r => (1 : ℚ) / 2 < getSpeedMs r)).map
          (fun r => getDistanceKm r.distance)))
    ∧ (∀ recs : List PRecord,
        List.Chain' (· ≤ ·)
          (0 :: ((recs.filter (fun r => (1 : ℚ) / 2 < getSpeedMs r)).map
            (fun r => getDistanceKm r.distance)).filterMap id) →
        List.Chain' (· ≤ ·) ((processRecords recs).map (·.distance))) := by
  constructor
  · intro recs
    exact processGo_distances _ 0 0
  · intro recs h
    have hchain := carryDistances_chain
      ((recs.filter (fun r => (1 : ℚ) / 2 < getSpeedMs r)).map
        (fun r => getDistanceKm r.distance)) 0 h
    unfold processRecords
    rw [processGo_distances _ 0 0]
    exact hchain.tail

/-- C5 witness: a single accepted record with raw distance 200 cm satisfies
the sortedness hypothesis and yields a non-decreasing distance sequence. -/
theorem processRecords_c5_witness :
    List.Chain' (· ≤ ·)
      (0 :: (([recDist200].filter (fun r => (1 : ℚ) / 2 < getSpeedMs r)).map
        (fun r => getDistanceKm r.distance)).filterMap id)
    ∧ List.Chain' (· ≤ ·) ((processRecords [recDist200]).map (·.distance)) := by
  have hhyp : List.Chain' (· ≤ ·)
      (0 :: (([recDist200].filter (fun r => (1 : ℚ) / 2 < getSpeedMs r)).map
        (fun r => getDistanceKm r.distance)).filterMap id) := by
    norm_num [getSpeedMs, speedFromRaw, getDistanceKm, List.filter, List.filterMap,
      recDist200, List.chain'_cons, List.chain'_singleton]
  exact ⟨hhyp, processRecords_c5_carry_monotone.2 [recDist200] hhyp⟩

/-- C6: every unit normalizer treats raw 0 as absent — each of the six
`Option`-returning normalizers maps raw 0 to `none`; the speed normalizer
maps a record whose raw speeds are 0 to the 0 sentinel and such a record is
filtered out entirely; a raw cadence of 0 yields an absent cadence in the
emitted point; and in every emitted `RunningDataPoint` the speed exceeds the
0.5 m/s acceptance filter and the ground-contact time is either the explicit
0-sentinel or a range-checked value in 150–400 ms. -/
theorem normalizers_c6_zero_absent :
    (∀ recs : List PRecord, ∀ p ∈ processRecords recs,
      (1 : ℚ) / 2 < p.speed ∧ (p.gct = 0 ∨ (150 ≤ p.gct ∧ p.gct ≤ 400)))
    ∧ getDistanceKm (some 0) = none
    ∧ getGctMs (some 0) = none
    ∧ getVOCm (some 0) = none
    ∧ getStepLengthMm (some 0) = none
    ∧ getVerticalRatioPercent (some 0) = none
    ∧ getStanceTimeBalancePercent (some 0) = none
    ∧ getSpeedMs recZeroSpeed = 0
    ∧ processRecords [recZeroSpeed] = []
    ∧ (processRecords [recZeroCadence]).map (·.cadence) = [none] := by
  refine ⟨?_, rfl, rfl, rfl, rfl, rfl, rfl, rfl, ?_, ?_⟩
  · intro recs p hp
    refine processGo_speed_gct _ ?_ 0 0 p hp
    intro r hr
    have := (List.mem_filter.mp hr).2
    exact of_decide_eq_true this
  · norm_num [processRecords, processGo, getSpeedMs, speedFromRaw, List.filter,
      recZeroSpeed]
  · norm_num [processRecords, processGo, processPoint, getSpeedMs, speedFromRaw,
      getDistanceKm, getVOCm, getGctMs, getStepLengthMm, getVerticalRatioPercent,
      getStanceTimeBalancePercent, orElseO, List.filter, recZeroCadence]

/-- C6 witness: the point emitted for `recGct2200` (speed 3 m/s, raw stance
time 2200) is in the output and satisfies the invariant. -/
theorem normalizers_c6_witness :
    (processPoint 0 0 recGct2200).1 ∈ processRecords [recGct2200]
    ∧ ((1 : ℚ) / 2 < (processPoint 0 0 recGct2200).1.speed
       ∧ ((processPoint 0 0 recGct2200).1.gct = 0
          ∨ (150 ≤ (processPoint 0 0 recGct2200).1.gct
             ∧ (processPoint 0 0 recGct2200).1.gct ≤ 400))) := by
  have hne : processRecords [recGct2200] =
      [(processPoint 0 0 recGct2200).1] := by
    norm_num [processRecords, processGo, getSpeedMs, speedFromRaw, List.filter,
      recGct2200]
  have hmem : (processPoint 0 0 recGct2200).1 ∈ processRecords [recGct2200] := by
    rw [hne]; exact List.mem_singleton_self _
  exact ⟨hmem, normalizers_c6_zero_absent.1 [recGct2200] _ hmem⟩

/-- C3: REFUTED as stated for the 8-bit types — the codec does not check the
declared size against the 1-byte minimum: a field tagged `uint8` (code 2)
with declared `byteSize = 0` still reads the byte at the offset and returns
it, instead of the absent value the claim requires. -/
theorem readFieldValue_c3_counterexample :
    readFieldValue [7] 0 ⟨0, 0, 2⟩ true = some (JSNum.num 7)
    ∧ readFieldValue [7] 0 ⟨0, 0, 2⟩ true ≠ none := by
  constructor
  · decide
  · decide

/-- C3 (amended): the minimum-size gate holds for every multi-byte type —
declared size below 2 for sint16/uint16/uint16z, below 4 for the 32-bit and
float32 types, below 8 for float64 yields absent — and for every type any
read whose offset plus width exceeds the buffer length yields absent; the
codec is a total function and never throws (the 8-bit types, `minSize = 1`,
read one byte unconditionally and are exempt from the size gate). -/
theorem readFieldValue_c3_absent (buf : Buf) (off : Nat) (f : FITFieldDef)
    (isLE : Bool)
    (h : (2 ≤ minSize (f.baseType &&& 0x1F) ∧ f.fieldSize < minSize (f.baseType &&& 0x1F))
        ∨ buf.length < off + readWidth (f.baseType &&& 0x1F)) :
    readFieldValue buf off f isLE = none := by
  have hgu : ∀ w, buf.length < off + w → getUintN buf off w isLE = none := by
    intro w hw
    unfold getUintN
    rw [if_neg]
    omega
  unfold readFieldValue
  generalize hbt : f.baseType &&& 0x1F = bt at h ⊢
  have hle : bt ≤ 31 := by rw [← hbt]; exact Nat.and_le_right
  interval_cases bt <;>
    simp_all [minSize, readWidth, getUintV, getIntV, getFloat32V, getFloat64V] <;>
    intro hsz <;>
    (try intro a) <;>
    (rcases h with h | h
     · omega
     · simp [hgu _ h])

/-- C3 witness: a `uint16` field (code 4) with declared size 1 is absent. -/
theorem readFieldValue_c3_witness :
    ((2 ≤ minSize (4 &&& 0x1F) ∧ 1 < minSize (4 &&& 0x1F))
      ∨ ([1, 2] : Buf).length < 0 + readWidth (4 &&& 0x1F))
    ∧ readFieldValue [1, 2] 0 ⟨0, 1, 4⟩ true = none :=
  ⟨Or.inl (by decide), readFieldValue_c3_absent [1, 2] 0 ⟨0, 1, 4⟩ true (Or.inl (by decide))⟩

/-- C10: developer-field values are decoded purely from the declared byte
size (the developer field definition carries no base type at all): size 1 is
an unsigned 8-bit read, size 2 an unsigned 16-bit read in the definition's
endianness, size 8 an IEEE-754 float64, any other size absent; a 4-byte slot
is read as an IEEE-754 float32 and kept when finite with absolute value below
1e10, otherwise re-read as an unsigned 32-bit integer.  `readDevFieldValue`
coincides with `devFieldValueClaim`, the claim's wording written out
independently. -/
theorem readDevFieldValue_c10_spec :
    ∀ (buf : Buf) (off size : Nat) (isLE : Bool),
      readDevFieldValue buf off size isLE = devFieldValueClaim buf off size isLE := by
  intro buf off size isLE
  unfold readDevFieldValue devFieldValueClaim
  by_cases h1 : size = 1
  · simp [h1]
  · by_cases h2 : size = 2
    · simp [h1, h2]
    · by_cases h4 : size = 4
      · simp only [h1, h2, h4, if_false, if_true, if_pos, if_neg, Nat.succ_ne_self]
        simp only [show (4 : Nat) ≠ 1 from by omega, show (4 : Nat) ≠ 2 from by omega,
          show (4 : Nat) ≠ 8 from by omega, if_false, if_true, ite_true, ite_false,
          if_pos rfl]
        cases hf : getFloat32V buf off isLE with
        | none => rfl
        | some j => cases j <;> rfl
      · by_cases h8 : size = 8
        · simp [h1, h2, h4, h8]
        · simp [h1, h2, h4, h8]

/-- C4: REFUTED as stated — not every garbage byte is skipped by a one-byte
advance.  The garbage byte `0x40` parses as a definition-message header: the
decoder consumes the following record's bytes as a bogus definition, throws
at the buffer end, and the stream yields only ONE decoded Data message
instead of the two the claim requires. -/
theorem parse_c4_counterexample :
    parse (bufC4 0x40) 50 = .ok [recSpeed258]
    ∧ ([recSpeed258] : List FITRecordOut).length ≠ 2 := by
  constructor
  · decide
  · decide

set_option maxRecDepth 4000 in
set_option maxHeartbeats 2000000 in
/-- C4 (amended): the resync property holds whenever the garbage byte is a
plain data-message header for an undefined local type — bit 7 (compressed)
clear, bit 6 (definition) clear, and a non-zero low nibble (local type with
no definition in this stream).  For every such byte the decoder skips it by a
one-byte advance and still yields exactly the two well-formed Data messages
(speeds 258 and 772). -/
theorem parse_c4_resync (g : Nat) (h1 : g < 256) (h2 : g &&& 0x80 = 0)
    (h3 : g &&& 0x40 = 0) (h4 : g &&& 0x0F ≠ 0) :
    parse (bufC4 g) 50 = .ok [recSpeed258, recSpeed772] := by
  have hall : ((List.range 256).all (fun b =>
      !(decide (b &&& 0x80 = 0) && decide (b &&& 0x40 = 0) && !(decide (b &&& 0x0F = 0))) ||
      decide (parse (bufC4 b) 50 = .ok [recSpeed258, recSpeed772]))) = true := by decide
  have hg := List.all_eq_true.mp hall g (List.mem_range.mpr h1)
  simp only [Bool.or_eq_true] at hg
  rcases hg with hL | hR
  · exfalso
    rw [decide_eq_true h2, decide_eq_true h3, decide_eq_false h4] at hL
    simp at hL
  · exact of_decide_eq_true hR

/-- C4 witness: garbage byte 15 (data header, undefined local type 15) is
skipped and both record messages are recovered. -/
theorem parse_c4_witness :
    (15 < 256 ∧ 15 &&& 0x80 = 0 ∧ 15 &&& 0x40 = 0 ∧ 15 &&& 0x0F ≠ 0)
    ∧ parse (bufC4 15) 50 = .ok [recSpeed258, recSpeed772] :=
  ⟨⟨by decide, by decide, by decide, by decide⟩,
    parse_c4_resync 15 (by decide) (by decide) (by decide) (by decide)⟩
